import Mathlib

/-!
Verification development for the pdfrw PdfReader core
(src/pdfrw/pdfreader.py).  The Python code is shallowly embedded:

* Python `str` buffers (`fdata`) become `List Char`; Python slicing and
  `str.find` (with their negative-index and clamping semantics) are
  reproduced by `pySlice` / `pySliceN` / `pyFind`.
* Python `dict`s (insertion ordered) become association lists; `d[k] = v`
  is `aset`, `d.setdefault` is `asetdefault`, `d.update` is `aupdate`,
  `d.get` is `alookup`.
* Python `int(...)` is `pyInt` (sign allowed), `str.isdigit` is `pyIsdigit`.
* The lexical tokenizer is an external collaborator of this module; where
  PdfReader consults it only to compare keywords (`source.multiple(2)`
  after a stream) it is modelled by `tokens2`, a whitespace/delimiter
  token scanner.  Where `loadindirect` delegates a whole object parse to
  it (header validation plus `readdict`/`readarray` driven by raw bytes)
  the parse step is abstracted as a state-transforming oracle argument.
* Uncaught Python exceptions (ValueError from `int`, IndexError from
  `pop`, StopIteration from an exhausted token source) are modelled by
  `Option`, with `none` for the aborted computation; Python loops that
  would not terminate are cut by an explicit fuel parameter (exhausted
  fuel also yields `none`).
-/

/-- Object identity: `(object number, generation number)`, as produced by
Python `int()` (so `Int`, not `Nat`: `int` accepts signed text). -/
abbrev PdfKey := Int × Int

/-- Association-list lookup, first match wins (Python dict `get`). -/
def alookup {α β : Type} [DecidableEq α] : List (α × β) → α → Option β
  | [], _ => none
  | (k, v) :: rest, key => if k = key then some v else alookup rest key

/-- Python dict assignment `d[k] = v`: overwrite in place, else append. -/
def aset {α β : Type} [DecidableEq α] : List (α × β) → α → β → List (α × β)
  | [], key, v => [(key, v)]
  | (k, w) :: rest, key, v =>
      if k = key then (k, v) :: rest else (k, w) :: aset rest key v

/-- Python dict `d.setdefault(k, v)`: insert only when the key is absent. -/
def asetdefault {α β : Type} [DecidableEq α] (m : List (α × β)) (key : α) (v : β) :
    List (α × β) :=
  match alookup m key with
  | some _ => m
  | none => m ++ [(key, v)]

/-- Python dict `base.update(upd)`: apply every entry of `upd` in order. -/
def aupdate {α β : Type} [DecidableEq α] (base upd : List (α × β)) : List (α × β) :=
  upd.foldl (fun b kv => aset b kv.1 kv.2) base

/-- PDF whitespace characters as recognized by the tokenizer. -/
def pdfWhite (c : Char) : Bool :=
  c = '\x00' || c = '\t' || c = '\n' || c = '\x0c' || c = '\r' || c = ' '

/-- PDF delimiter characters. -/
def pdfDelim (c : Char) : Bool :=
  c = '(' || c = ')' || c = '<' || c = '>' || c = '\x7b' || c = '\x7d' ||
  c = '[' || c = ']' || c = '/' || c = '%'

/-- Characters stripped by Python `str.rstrip()` with no argument. -/
def pySpace (c : Char) : Bool :=
  c = ' ' || c = '\t' || c = '\n' || c = '\r' || c = '\x0b' || c = '\x0c'

/-- Python `s.rstrip()` on a character list. -/
def rstripL (l : List Char) : List Char :=
  (l.reverse.dropWhile pySpace).reverse

/-- Effective index of a Python slice bound `i` into a sequence of length
`n`: negative indices count from the end, and both ends clamp. -/
def pyIdx (n : Nat) (i : Int) : Nat :=
  if i < 0 then ((n : Int) + i).toNat else min i.toNat n

/-- Python slice `l[a:b]` with full `int` index semantics. -/
def pySlice (l : List Char) (a b : Int) : List Char :=
  (l.drop (pyIdx l.length a)).take (pyIdx l.length b - pyIdx l.length a)

/-- Python slice `l[a:b]` for nonnegative bounds. -/
def pySliceN (l : List Char) (a b : Nat) : List Char :=
  (l.drop a).take (b - a)

/-- Whether `needle` is a prefix of `hay`. -/
def matchesAt : List Char → List Char → Bool
  | _, [] => true
  | [], _ :: _ => false
  | h :: hs, n :: ns => h = n && matchesAt hs ns

/-- Scan positions `pos, pos+1, ...` for a full match of `needle` ending
no later than `lim`; `fuel` bounds the scan (callers pass `lim + 1`). -/
def findAux (hay needle : List Char) (lim : Nat) : Nat → Nat → Option Nat
  | 0, _ => none
  | fuel + 1, pos =>
      if pos + needle.length ≤ lim then
        if matchesAt (hay.drop pos) needle then some pos
        else findAux hay needle lim fuel (pos + 1)
      else none

/-- Effective upper bound of a Python `find` with `stop` on a sequence of
length `n`: negative values count from the end, positive ones clamp. -/
def pyFindLim (n : Nat) (stop : Int) : Nat :=
  if stop < 0 then ((n : Int) + stop).toNat else min stop.toNat n

/-- Python `hay.find(needle, start, stop)`: the match must lie entirely
inside `[start, stop)`; a negative `stop` counts from the end; the result
is `none` where Python returns `-1`. -/
def pyFind (hay needle : List Char) (start : Nat) (stop : Int) : Option Nat :=
  findAux hay needle (pyFindLim hay.length stop) (pyFindLim hay.length stop + 1) start

/-- Read one token at the head of `l`: skip whitespace, then take either a
single delimiter character or a maximal run of regular characters.  This
models the external tokenizer far enough to compare keyword tokens. -/
def nextTokL (l : List Char) : Option (List Char × List Char) :=
  match l.dropWhile pdfWhite with
  | [] => none
  | c :: cs =>
      if pdfDelim c then some ([c], cs)
      else some ((c :: cs).takeWhile (fun d => !pdfWhite d && !pdfDelim d),
                 (c :: cs).dropWhile (fun d => !pdfWhite d && !pdfDelim d))

/-- The two tokens the tokenizer yields from byte position `p` of `fdata`
(`source.floc = p; source.multiple(2)`), fewer if input runs out. -/
def tokens2 (fdata : List Char) (p : Nat) : List (List Char) :=
  match nextTokL (fdata.drop p) with
  | none => []
  | some (t1, r1) =>
      match nextTokL r1 with
      | none => [t1]
      | some (t2, _) => [t1, t2]

/-- Diagnostics reported through the tokenizer / module logger.  The
`warning` and `error` severities are both non-fatal; a fatal abort
(`source.exception`) is a different mechanism and never occurs in the
functions modelled below unless noted. -/
inductive LogMsg where
  | warning (msg : String)
  | error (msg : String)
  deriving DecidableEq, Repr

/-- Result of `PdfReader.readstream`: the final raw stream body put on the
object (`obj._stream` / `obj.stream`) plus the diagnostics logged. -/
structure StreamOut where
  body : List Char
  log : List LogMsg
  deriving DecidableEq, Repr

/-- The token pair `'endstream endobj'.split()` used by `readstream`. -/
def streamending : List (List Char) := [String.toList "endstream", String.toList "endobj"]

/-- PdfReader.readstream: locate the raw stream body of length `length0`
(the declared `/Length`) starting at byte `startstream`, repairing the
window against the physical `endstream` / `endobj` markers.  Mirrors the
source line by line; `source.floc` bookkeeping is omitted (no claim
consults it). -/
def readstream (fdata : List Char) (startstream length0 : Nat) : StreamOut :=
  let target := startstream + length0
  let body0 := pySliceN fdata startstream target
  if tokens2 fdata target = streamending then ⟨body0, []⟩
  else
    match pyFind fdata (String.toList "endstream") startstream ((fdata.length : Int) - 20) with
    | none => ⟨body0, [LogMsg.error "Could not find endstream"]⟩
    | some endstream =>
        let room := endstream - startstream
        if length0 = room + 1 ∧
            pySlice fdata ((startstream : Int) - 2) (startstream : Int) = ['\r', '\n'] then
          ⟨pySlice fdata ((startstream : Int) - 1) ((target : Int) - 1),
           [LogMsg.warning "stream keyword terminated by CR without LF"]⟩
        else if room < length0 then
          ⟨pySliceN fdata startstream endstream,
           [LogMsg.error "stream Length attribute appears to be too big -- adjusting"]⟩
        else if rstripL (pySliceN fdata target endstream) ≠ [] then
          ⟨pySliceN fdata startstream endstream,
           [LogMsg.error "stream Length attribute appears to be too small -- adjusting"]⟩
        else
          match pyFind fdata (String.toList "endobj") endstream ((fdata.length : Int) - 20) with
          | none => ⟨body0, [LogMsg.error "Could not find endobj after endstream"]⟩
          | some endobj =>
              if rstripL (pySliceN fdata endstream endobj) ≠ String.toList "endstream" then
                ⟨body0, [LogMsg.error "Unexpected data between endstream and endobj"]⟩
              else
                ⟨body0, [LogMsg.error "Illegal endstream endobj combination"]⟩

/-- PDF values as built by PdfReader.  `tok` is a scalar PdfObject (a str
subclass in the source), `ref` is a PdfIndirect placeholder carrying its
identity, `null` is Python `None` (produced by the `empty_obj` recovery),
and `arr` / `dict` are PdfArray / PdfDict.  The same type populates the
`indirect_objects` registry, exactly as in the source where a registry
slot holds either a PdfIndirect or the resolved object. -/
inductive PdfVal where
  | null
  | tok (s : String)
  | ref (key : PdfKey)
  | arr (elems : List PdfVal)
  | dict (entries : List (String × PdfVal))

/-- Whether a value is a PdfIndirect placeholder (`isinstance(result, PdfIndirect)`). -/
def PdfVal.isRef : PdfVal → Bool
  | .ref _ => true
  | _ => false

/-- Whether a value is dictionary shaped (`isinstance(obj, PdfDict)`). -/
def PdfVal.isDict : PdfVal → Bool
  | .dict _ => true
  | _ => false

/-- The mutable per-load state of a PdfReader: the indirect object
registry, the deferred-load worklist (a Python `set`, modelled as a list
with membership semantics; `add` only ever fires when the key is absent),
the merged object-offset map of the tokenizer (`source.obj_offsets`), and
the accumulated diagnostics log. -/
structure ReaderState where
  indirect_objects : List (PdfKey × PdfVal)
  deferred_objects : List PdfKey
  obj_offsets : List (PdfKey × Int)
  log : List LogMsg

/-- Value of nonempty all-digit text, else `none`. -/
def digitsVal (l : List Char) : Option Nat :=
  if l ≠ [] ∧ l.all Char.isDigit then
    some (l.foldl (fun a c => a * 10 + (c.toNat - 48)) 0)
  else none

/-- Python `int(s)` on token text: optional surrounding spaces, an
optional sign, then digits; `none` models the ValueError raise. -/
def pyInt (s : String) : Option Int :=
  match (s.toList.dropWhile (· = ' ')).reverse.dropWhile (· = ' ') |>.reverse with
  | '-' :: ds => (digitsVal ds).map (fun n => -(n : Int))
  | '+' :: ds => (digitsVal ds).map (fun n => (n : Int))
  | ds => (digitsVal ds).map (fun n => (n : Int))

/-- Python `s.isdigit()` (ASCII model). -/
def pyIsdigit (s : String) : Bool :=
  !s.toList.isEmpty && s.toList.all Char.isDigit

/-- PdfReader.findindirect: return the registered value for an identity,
creating and registering a fresh placeholder (and adding the identity to
the deferred set) when none exists.  `none` models the uncaught
ValueError when `int()` rejects one of the two number tokens. -/
def findindirect (st : ReaderState) (objnum gennum : String) :
    Option (ReaderState × PdfVal) :=
  match pyInt objnum, pyInt gennum with
  | some o, some g =>
      let key : PdfKey := (o, g)
      match alookup st.indirect_objects key with
      | some result => some (st, result)
      | none =>
          some ({ st with
                    indirect_objects := aset st.indirect_objects key (PdfVal.ref key),
                    deferred_objects := st.deferred_objects ++ [key] },
                PdfVal.ref key)
  | _, _ => none

/-- Tail of PdfReader.loadindirect once the object header has been
validated and the object value `obj` parsed, with `tok` the token that
follows it: store the object, drop the identity from the deferred set,
then dispatch on `tok` (`endobj` done; `stream` on a dict delegates to
readstream, which touches only the object's stream bytes; anything else
is the malformed-object recovery producing a PdfObject fallback). -/
def loadStep (st1 : ReaderState) (key : PdfKey) (obj : PdfVal) (tok : String) :
    ReaderState × Option PdfVal :=
  let st2 : ReaderState :=
    { st1 with
        indirect_objects := aset st1.indirect_objects key obj,
        deferred_objects := st1.deferred_objects.erase key }
  if tok = "endobj" then (st2, some obj)
  else if obj.isDict = true ∧ tok = "stream" then (st2, some obj)
  else
    match obj with
    | PdfVal.tok s =>
        if matchesAt s.toList.reverse (String.toList "jbodne") then
          let obj2 := PdfVal.tok (String.mk (s.toList.take (s.toList.length - 6)))
          ({ st2 with
               indirect_objects := aset st2.indirect_objects key obj2,
               log := st2.log ++ [LogMsg.error "No space or delimiter before endobj"] },
           some obj2)
        else
          ({ st2 with
               indirect_objects := aset st2.indirect_objects key (PdfVal.tok ""),
               log := st2.log ++ [LogMsg.error "Expected endobj or stream token"] },
           some (PdfVal.tok ""))
    | _ =>
        ({ st2 with
             indirect_objects := aset st2.indirect_objects key (PdfVal.tok ""),
             log := st2.log ++ [LogMsg.error "Expected endobj or stream token"] },
         some (PdfVal.tok ""))

/-- PdfReader.loadindirect.  The work of seeking to the byte offset,
validating the `N G obj` header (including the byte-scan relocation
heuristic) and parsing one object value through the external tokenizer is
abstracted as the oracle `parseAt key offset st`: `none` is the
unrecoverable header mismatch (`warning`, resolve to Python `None`), and
`some (st1, obj, tok)` is a successful parse returning the object and the
token after it, `st1` accounting for placeholders the parse itself
registered for references discovered inside the object.  All registry and
deferred-set bookkeeping is the source's own. -/
def loadindirect
    (parseAt : PdfKey → Int → ReaderState → Option (ReaderState × PdfVal × String))
    (st : ReaderState) (key : PdfKey) : ReaderState × Option PdfVal :=
  match alookup st.indirect_objects key with
  | none => (st, none)
  | some result =>
      if result.isRef = true then
        let offset := (alookup st.obj_offsets key).getD 0
        if offset = 0 then
          ({ st with log := st.log ++ [LogMsg.warning "Did not find PDF object"] }, none)
        else
          match parseAt key offset st with
          | none =>
              ({ st with log := st.log ++ [LogMsg.warning "Expected indirect object"] },
               none)
          | some (st1, obj, tok) => loadStep st1 key obj tok
      else (st, some result)

/-- PdfReader.read_all: drain the deferred set to a fixed point, loading
every identity not yet attempted (`deferred - prev`); identities that a
load attempt leaves in the deferred set are not retried because `prev`
already records them.  `fuel` bounds the while loop. -/
def read_all
    (parseAt : PdfKey → Int → ReaderState → Option (ReaderState × PdfVal × String)) :
    Nat → ReaderState → List PdfKey → ReaderState
  | 0, st, _ => st
  | fuel + 1, st, prev =>
      let new := st.deferred_objects.filter (fun k => !prev.contains k)
      if new.isEmpty then st
      else
        let prev2 := prev ++ st.deferred_objects.filter (fun k => !prev.contains k)
        let st2 := new.foldl (fun s k => (loadindirect parseAt s k).1) st
        read_all parseAt fuel st2 prev2

/-- The stray delimiter tokens registered to `badtoken` in `__init__`
(`r'\ ( ) < > { } ] >> %'.split()`); meeting one as a value is a fatal
syntax error (`source.exception`). -/
def isBadTok (s : String) : Bool :=
  s = "\\" || s = "(" || s = ")" || s = "<" || s = ">" || s = "\x7b" ||
  s = "\x7d" || s = "]" || s = ">>" || s = "%"

mutual

/-- Loop body of PdfReader.readarray over the remaining token stream.
`racc` is the accumulated `result` list kept in reverse so that Python's
`pop()` is head access.  A `]` ends the array; an `R` pops the previous
two values and collapses them through `findindirect` (no digit check in
the source: `int()` decides, and a non-token or non-numeric operand is an
uncaught TypeError / ValueError, modelled `none`, as is `pop` on an empty
list); otherwise the `special` dispatch runs: nested `[` / `<<` recurse,
`endobj` appends Python `None` and rewinds the cursor so the same token
is seen again (an endless loop in the source, cut here by fuel), a stray
delimiter is fatal, and any other token is appended as a scalar.  An
exhausted source simply ends the loop.  Returns the final state, the
elements in order, and the unconsumed tokens. -/
def readarrayAux (st : ReaderState) (racc : List PdfVal) :
    Nat → List String → Option (ReaderState × List PdfVal × List String)
  | _, [] => some (st, racc.reverse, [])
  | 0, _ :: _ => none
  | fuel + 1, value :: rest =>
      if value = "]" then some (st, racc.reverse, rest)
      else if value = "R" then
        match racc with
        | generation :: objnum :: racc2 =>
            match objnum, generation with
            | PdfVal.tok o, PdfVal.tok g =>
                match findindirect st o g with
                | some (st2, v) => readarrayAux st2 (v :: racc2) fuel rest
                | none => none
            | _, _ => none
        | _ => none
      else if value = "[" then
        match readarrayAux st [] fuel rest with
        | some (st2, elems, rest2) =>
            readarrayAux st2 (PdfVal.arr elems :: racc) fuel rest2
        | none => none
      else if value = "<<" then
        match readdictAux st [] fuel rest with
        | some (st2, entries, rest2) =>
            readarrayAux st2 (PdfVal.dict entries :: racc) fuel rest2
        | none => none
      else if value = "endobj" then
        readarrayAux st (PdfVal.null :: racc) fuel (value :: rest)
      else if isBadTok value = true then none
      else readarrayAux st (PdfVal.tok value :: racc) fuel rest

/-- Loop body of PdfReader.readdict over the remaining token stream.
`acc` is the accumulated dictionary.  `>>` ends the dictionary; a key not
starting with `/` is a recoverable error (log and skip); a special value
token dispatches as in `readarrayAux` (for `endobj` the rewound token is
re-read as the loop's next `tok`); otherwise, when the value and the next
token are both `isdigit` the source demands an `R` (collapsing through
`findindirect`) and on any other third token logs an error and drops the
pair; a non-digit pair stores the scalar and continues with the token
already in hand.  An exhausted source is an uncaught StopIteration
(`none`). -/
def readdictAux (st : ReaderState) (acc : List (String × PdfVal)) :
    Nat → List String → Option (ReaderState × List (String × PdfVal) × List String)
  | _, [] => none
  | 0, _ :: _ => none
  | fuel + 1, tok :: rest =>
      if tok = ">>" then some (st, acc, rest)
      else if (match tok.toList with | c :: _ => c = '/' | [] => false) = false then
        readdictAux { st with log := st.log ++ [LogMsg.error "Expected PDF name object"] }
          acc fuel rest
      else
        match rest with
        | [] => none
        | value :: rest2 =>
            if value = "[" then
              match readarrayAux st [] fuel rest2 with
              | some (st2, elems, rest3) =>
                  readdictAux st2 (aset acc tok (PdfVal.arr elems)) fuel rest3
              | none => none
            else if value = "<<" then
              match readdictAux st [] fuel rest2 with
              | some (st2, entries, rest3) =>
                  readdictAux st2 (aset acc tok (PdfVal.dict entries)) fuel rest3
              | none => none
            else if value = "endobj" then
              readdictAux st (aset acc tok PdfVal.null) fuel (value :: rest2)
            else if isBadTok value = true then none
            else
              match rest2 with
              | [] => none
              | tok2 :: rest3 =>
                  if pyIsdigit value = true ∧ pyIsdigit tok2 = true then
                    match rest3 with
                    | [] => none
                    | tok3 :: rest4 =>
                        if tok3 ≠ "R" then
                          readdictAux
                            { st with log := st.log ++
                                [LogMsg.error "Expected R following two integers"] }
                            acc fuel (tok3 :: rest4)
                        else
                          match findindirect st value tok2 with
                          | some (st2, v) => readdictAux st2 (aset acc tok v) fuel rest4
                          | none => none
                  else
                    readdictAux st (aset acc tok (PdfVal.tok value)) fuel (tok2 :: rest3)

end

/-- PdfReader.readarray from a `[` token: parse the following tokens. -/
def readarray (st : ReaderState) (fuel : Nat) (toks : List String) :
    Option (ReaderState × PdfVal × List String) :=
  (readarrayAux st [] fuel toks).map (fun r => (r.1, PdfVal.arr r.2.1, r.2.2))

/-- Object-offset map of one or more xref sections
(`source.obj_offsets`). -/
abbrev OffMap := List (PdfKey × Int)

/-- In-use flag of a classic xref table entry: `n`, `f`, or anything else
(which the strict parser turns into a ValueError). -/
inductive InUse where
  | n
  | f
  | bad
  deriving DecidableEq, Repr

/-- One fixed-format entry of a classic xref table: `offset generation flag`. -/
structure TableEntry where
  offset : Int
  generation : Int
  inuse : InUse
  deriving DecidableEq, Repr

/-- Entry loop of PdfReader.parse_xref_table for one `(startobj, count)`
subsection: walk the entries with the running object number; an in-use
entry with a nonzero offset is recorded with `setdefault` (so an
already-recorded identity is never overwritten); a free entry is skipped;
any other flag raises ValueError (`none`, sending the source into the
line-by-line recovery scan). -/
def parse_xref_table_entries (m : OffMap) (objnum : Int) :
    List TableEntry → Option OffMap
  | [] => some m
  | e :: es =>
      match e.inuse with
      | InUse.n =>
          parse_xref_table_entries
            (if e.offset ≠ 0 then asetdefault m (objnum, e.generation) e.offset else m)
            (objnum + 1) es
      | InUse.f => parse_xref_table_entries m (objnum + 1) es
      | InUse.bad => none

/-- Strict path of PdfReader.parse_xref_table over pre-split subsections,
each a `(startobj, entries)` pair. -/
def parse_xref_table_sections (m : OffMap) :
    List (Int × List TableEntry) → Option OffMap
  | [] => some m
  | (start, es) :: subs =>
      match parse_xref_table_entries m start es with
      | some m2 => parse_xref_table_sections m2 subs
      | none => none

/-- Big-endian integer value of a byte run (`int(hexlify(d), 16)`, with
`width and ...` making a zero-width column decode to 0). -/
def decodeBE (bs : List Nat) : Nat :=
  bs.foldl (fun a b => a * 256 + b) 0

/-- Split one xref-stream row: consume every column width of `W` from the
byte stream (widths past the third are read and discarded, exactly as the
source's loop assigns only `i = 0, 1, 2`), returning the decoded columns
and the remaining bytes. -/
def splitFields : List Nat → List Nat → List Nat × List Nat
  | [], bytes => ([], bytes)
  | w :: ws, bytes =>
      let rest := splitFields ws (bytes.drop w)
      (decodeBE (bytes.take w) :: rest.1, rest.2)

/-- Accumulator for compressed (type 2) entries: containing object number
to the list of member indices, in insertion order (a Python dict of
lists). -/
abbrev ObjStms := List (Nat × List Nat)

/-- Append one member index under its containing object number. -/
def osAdd (os : ObjStms) (objnum : Nat) (idx : Nat) : ObjStms :=
  match alookup os objnum with
  | some l => aset os objnum (l ++ [idx])
  | none => os ++ [(objnum, [idx])]

/-- Effect of one decoded xref-stream row on the accumulators: a type 1
row with nonzero offset is recorded with `setdefault` under
`(num, generation)` (column 1 is the offset, column 2 the generation); a
type 2 row is accumulated for the object-stream expander (column 1 the
containing object number, column 2 the index within it); other types are
skipped. -/
def applyStreamRow (m : OffMap) (os : ObjStms) (num : Int) (xref_type d1 d2 : Nat) :
    OffMap × ObjStms :=
  if xref_type = 1 ∧ d1 ≠ 0 then (asetdefault m (num, (d2 : Int)) (d1 : Int), os)
  else if xref_type = 2 then (m, osAdd os d1 d2)
  else (m, os)

/-- Row loop of PdfReader.parse_xref_stream for one `(num, size)` pair of
`Index`: decode `size` fixed-width rows; column 0 is the entry type (a
zero-width type column means type 1); the row effect is `applyStreamRow`;
the object number increments per row. -/
def parse_xref_stream_rows (ws : List Nat) :
    List Nat → Int → Nat → OffMap × ObjStms → OffMap × ObjStms
  | _, _, 0, acc => acc
  | bytes, num, size + 1, (m, os) =>
      let split := splitFields ws bytes
      let t0 := split.1.getD 0 0
      let xref_type := if t0 = 0 ∧ ws.getD 0 0 = 0 then 1 else t0
      parse_xref_stream_rows ws split.2 (num + 1) size
        (applyStreamRow m os num xref_type (split.1.getD 1 0) (split.1.getD 2 0))

/-- Subject-range loop of PdfReader.parse_xref_stream: note that
`stream_offset` is reset to 0 for every `(num, size)` pair, so each pair
decodes from the beginning of the stream bytes, exactly as the source
does. -/
def parse_xref_stream_pairs (ws : List Nat) (bytes : List Nat)
    (pairs : List (Int × Nat)) (acc : OffMap × ObjStms) : OffMap × ObjStms :=
  pairs.foldl (fun a p => parse_xref_stream_rows ws bytes p.1 p.2 a) acc

/-- Incremental-update chain merge from `PdfReader.__init__`: `xref_list`
holds the per-section offset maps of the sections that carried a `Prev`
pointer, in parse order (newest first); `base` is the map of the final,
oldest section, left in `source.obj_offsets` when the loop breaks.  The
source then runs `for update in reversed(xref_list):
source.obj_offsets.update(update)`. -/
def mergeXrefChain (xref_list : List OffMap) (base : OffMap) : OffMap :=
  xref_list.reverse.foldl aupdate base

/-- Trailer dictionary: name keys to values; a value may be the stored
Python `None` (as `trailer.Prev = None` writes). -/
abbrev TDict := List (String × Option String)

/-- Attribute read on a trailer: a missing key and a stored `None` both
read as `None`. -/
def tget (m : TDict) (k : String) : Option String :=
  (alookup m k).bind id

/-- The document-level fields the final merged trailer exposes
(`PdfDict(Root=..., Info=..., ID=...)`). -/
structure FinalTrailer where
  root : Option String
  info : Option String
  idv : Option String
  deriving DecidableEq, Repr

/-- Restriction of a merged trailer to `Root` / `Info` / `ID`. -/
def restrictTrailer (t : TDict) : FinalTrailer :=
  ⟨tget t "/Root", tget t "/Info", tget t "/ID"⟩

/-- Trailer handling of the `__init__` chain loop, over the trailers in
parse order (newest first; every trailer but the last carries `Prev`).
With no chain the single trailer is restricted directly.  With a chain,
the first (newest) trailer is saved as `original_trailer` after
`trailer.Prev = None`, the loop leaves the last (oldest) trailer in
`trailer`, and the merge is `trailer.update(original_trailer)` — the
oldest map updated by the newest — before restriction
(`feature_stream_objects` is `True` in the source).  Trailers of middle
sections are never consulted. -/
def loadTrailerChain : List TDict → Option FinalTrailer
  | [] => none
  | t0 :: rest =>
      match rest.getLast? with
      | none => some (restrictTrailer t0)
      | some tn => some (restrictTrailer (aupdate tn (aset t0 "/Prev" none)))

/-- Page-tree node as consumed by PdfReader.readpages: the `/Type` of the
dictionary decides the traversal (`page` a leaf page carrying an
identifying label, `pages` an interior node with its `/Kids`, `catalog`
with its `/Pages` entry, `other` any unexpected type). -/
inductive PTree where
  | page (id : Nat)
  | pages (kids : List PTree)
  | catalog (pagesAttr : PTree)
  | other (id : Nat)

mutual

/-- The generator `readnode` inside PdfReader.readpages: a `/Page` node
yields itself, a `/Pages` node recurses into each kid in order, a
`/Catalog` node recurses into its `/Pages` entry, and any other type logs
an error and yields nothing. -/
def readnode : PTree → List PTree
  | PTree.page i => [PTree.page i]
  | PTree.pages kids => readkids kids
  | PTree.catalog p => readnode p
  | PTree.other _ => []

/-- Kid-by-kid traversal of a `/Kids` array, preserving order. -/
def readkids : List PTree → List PTree
  | [] => []
  | k :: ks => readnode k ++ readkids ks

end

/-- PdfReader.readpages on a well-formed node (the `AttributeError` /
`TypeError` fallback to an empty list needs an ill-typed node, which the
`PTree` type cannot express). -/
def readpages (node : PTree) : List PTree :=
  readnode node

theorem alookup_aset_self {α β : Type} [DecidableEq α] (m : List (α × β)) (k : α) (v : β) :
    alookup (aset m k v) k = some v := by
  induction m with
  | nil => simp [aset, alookup]
  | cons kv rest ih =>
      obtain ⟨k0, w⟩ := kv
      by_cases h : k0 = k
      · subst h; simp [aset, alookup]
      · simp [aset, alookup, h, ih]

theorem alookup_aset_ne {α β : Type} [DecidableEq α] (m : List (α × β)) (k2 k : α) (v : β)
    (h : k2 ≠ k) : alookup (aset m k2 v) k = alookup m k := by
  induction m with
  | nil => simp [aset, alookup, h]
  | cons kv rest ih =>
      obtain ⟨k0, w⟩ := kv
      by_cases h0 : k0 = k2
      · subst h0; simp [aset, alookup, h]
      · simp [aset, alookup, h0, ih]

theorem alookup_append_left {α β : Type} [DecidableEq α] (m l : List (α × β)) (k : α) (v : β)
    (h : alookup m k = some v) : alookup (m ++ l) k = some v := by
  induction m with
  | nil => simp [alookup] at h
  | cons kv rest ih =>
      obtain ⟨k0, w⟩ := kv
      by_cases h0 : k0 = k
      · subst h0; simp_all [alookup]
      · simp [alookup, h0] at h ⊢; exact ih h

theorem alookup_asetdefault_of_some {α β : Type} [DecidableEq α]
    (m : List (α × β)) (k2 k : α) (v2 v : β)
    (h : alookup m k = some v) : alookup (asetdefault m k2 v2) k = some v := by
  unfold asetdefault
  cases hl : alookup m k2 with
  | some w => exact h
  | none => exact alookup_append_left m [(k2, v2)] k v h

theorem aupdate_cons {α β : Type} [DecidableEq α] (b : List (α × β)) (kv : α × β)
    (u : List (α × β)) : aupdate b (kv :: u) = aupdate (aset b kv.1 kv.2) u := rfl

theorem alookup_aupdate_of_none {α β : Type} [DecidableEq α]
    (b u : List (α × β)) (k : α)
    (h : alookup u k = none) : alookup (aupdate b u) k = alookup b k := by
  induction u generalizing b with
  | nil => rfl
  | cons kv rest ih =>
      obtain ⟨k0, w⟩ := kv
      by_cases h0 : k0 = k
      · subst h0; simp [alookup] at h
      · simp only [alookup, h0, if_neg h0] at h
        rw [aupdate_cons, ih _ h, alookup_aset_ne _ _ _ _ h0]

theorem alookup_none_of_not_mem {α β : Type} [DecidableEq α]
    (u : List (α × β)) (k : α) (h : k ∉ u.map Prod.fst) : alookup u k = none := by
  induction u with
  | nil => rfl
  | cons kv rest ih =>
      obtain ⟨k0, w⟩ := kv
      simp only [List.map_cons, List.mem_cons, not_or] at h
      simp [alookup, Ne.symm h.1, ih h.2]

theorem alookup_aupdate_of_nodup_some {α β : Type} [DecidableEq α]
    (b u : List (α × β)) (k : α) (v : β)
    (hnd : (u.map Prod.fst).Nodup) (h : alookup u k = some v) :
    alookup (aupdate b u) k = some v := by
  induction u generalizing b with
  | nil => simp [alookup] at h
  | cons kv rest ih =>
      obtain ⟨k0, w⟩ := kv
      simp only [List.map_cons, List.nodup_cons] at hnd
      by_cases h0 : k0 = k
      · subst h0
        simp [alookup] at h
        rw [aupdate_cons,
            alookup_aupdate_of_none _ _ _ (alookup_none_of_not_mem _ _ hnd.1)]
        simp [alookup_aset_self, h]
      · simp only [alookup, if_neg h0] at h
        rw [aupdate_cons]
        exact ih _ hnd.2 h

theorem findAux_ge (hay needle : List Char) (lim : Nat) (fuel pos i : Nat)
    (h : findAux hay needle lim fuel pos = some i) : pos ≤ i := by
  induction fuel generalizing pos with
  | zero => simp [findAux] at h
  | succ fuel ih =>
      unfold findAux at h
      by_cases hb : pos + needle.length ≤ lim
      · rw [if_pos hb] at h
        by_cases hm : matchesAt (hay.drop pos) needle = true
        · rw [if_pos hm] at h
          injection h with h2
          omega
        · rw [if_neg hm] at h
          exact Nat.le_of_succ_le (ih _ h)
      · rw [if_neg hb] at h
        exact absurd h (by simp)

theorem alookup_foldl_aupdate_none {α β : Type} [DecidableEq α]
    (lr : List (List (α × β))) (base : List (α × β)) (k : α) :
    (∀ s, s ∈ lr → alookup s k = none) → alookup base k = none →
    alookup (lr.foldl aupdate base) k = none := by
  induction lr generalizing base with
  | nil => intro _ hb; exact hb
  | cons s rest ih =>
      intro hl hb
      rw [List.foldl_cons]
      refine ih _ (fun t ht => hl t (List.mem_cons_of_mem _ ht)) ?_
      rw [alookup_aupdate_of_none _ _ _ (hl s (List.mem_cons_self _ _))]
      exact hb

theorem alookup_mergeXrefChain_none (l : List OffMap) (base : OffMap) (k : PdfKey)
    (hl : ∀ s, s ∈ l → alookup s k = none) (hb : alookup base k = none) :
    alookup (mergeXrefChain l base) k = none := by
  unfold mergeXrefChain
  exact alookup_foldl_aupdate_none _ _ _
    (fun s hs => hl s (List.mem_reverse.mp hs)) hb

/-- Claim C1: for every incremental-update chain of xref sections S0 (newest)
through Sn (oldest) linked by Prev pointers, after the chain merge in
`__init__` (the oldest section's map updated by `reversed(xref_list)`,
so by S0 last), any object identity whose entry appears in both S0 and
some older section resolves to the byte offset recorded in S0: the
newest section's offset wins in the merged object-offset map.  The
no-duplicate-keys hypothesis on S0 holds for every section map the
parsers build, since a Python dict cannot repeat a key. -/
theorem c1_chain_merge_newest_wins (s0 : OffMap) (rest : List OffMap) (base : OffMap)
    (k : PdfKey) (off : Int)
    (hnodup : (s0.map Prod.fst).Nodup)
    (h0 : alookup s0 k = some off)
    (holder : ∃ s, (s ∈ rest ∨ s = base) ∧ (alookup s k).isSome = true) :
    alookup (mergeXrefChain (s0 :: rest) base) k = some off := by
  unfold mergeXrefChain
  rw [List.reverse_cons, List.foldl_append]
  simp only [List.foldl_cons, List.foldl_nil]
  exact alookup_aupdate_of_nodup_some _ _ _ _ hnodup h0

/-- Witness for c1_chain_merge_newest_wins: a three-revision chain where
identity (1,0) is recorded at offset 100 by the newest section, 50 by the
middle one and 10 by the oldest; the merge resolves it to 100. -/
theorem c1_chain_merge_newest_wins_witness :
    alookup (mergeXrefChain
        [[(((1 : Int), (0 : Int)), (100 : Int))], [(((1 : Int), (0 : Int)), (50 : Int))]]
        [(((1 : Int), (0 : Int)), (10 : Int)), (((2 : Int), (0 : Int)), (7 : Int))])
      ((1 : Int), (0 : Int)) = some 100 :=
  c1_chain_merge_newest_wins _ _ _ _ _ (by decide) (by decide)
    ⟨[(((1 : Int), (0 : Int)), (50 : Int))], Or.inl (by simp), by decide⟩

theorem applyStreamRow_preserve (m : OffMap) (os : ObjStms) (num : Int)
    (t d1 d2 : Nat) (k : PdfKey) (v : Int) (h : alookup m k = some v) :
    alookup (applyStreamRow m os num t d1 d2).1 k = some v := by
  unfold applyStreamRow
  split
  · exact alookup_asetdefault_of_some _ _ _ _ _ h
  · split
    · exact h
    · exact h

/-- Claim C10: within a single xref section, in either form, recording an entry
goes through `setdefault`, so an identity already recorded in this
section's map is never overwritten by a later entry of the same section:
the first entry encountered wins.  Part one is the classic-table entry
loop, part two the xref-stream row loop. -/
theorem c10_within_section_first_entry_wins :
    (∀ (m : OffMap) (start : Int) (es : List TableEntry) (m2 : OffMap) (k : PdfKey) (v : Int),
        alookup m k = some v → parse_xref_table_entries m start es = some m2 →
        alookup m2 k = some v)
    ∧ (∀ (ws bytes : List Nat) (num : Int) (size : Nat) (m : OffMap) (os : ObjStms)
          (k : PdfKey) (v : Int),
        alookup m k = some v →
        alookup (parse_xref_stream_rows ws bytes num size (m, os)).1 k = some v) := by
  constructor
  · intro m start es
    induction es generalizing m start with
    | nil =>
        intro m2 k v h he
        unfold parse_xref_table_entries at he
        injection he with he2
        exact he2 ▸ h
    | cons e es ih =>
        intro m2 k v h he
        unfold parse_xref_table_entries at he
        cases hu : e.inuse <;> rw [hu] at he
        · refine ih _ _ _ _ _ ?_ he
          split
          · exact alookup_asetdefault_of_some _ _ _ _ _ h
          · exact h
        · exact ih _ _ _ _ _ h he
        · exact absurd he (by simp)
  · intro ws bytes num size
    induction size generalizing bytes num with
    | zero => intro m os k v h; exact h
    | succ size ih =>
        intro m os k v h
        unfold parse_xref_stream_rows
        dsimp only
        exact ih _ _ _ _ _ _ (applyStreamRow_preserve _ _ _ _ _ _ _ _ h)

/-- Witness for c10_within_section_first_entry_wins: in both forms a
second in-use entry for identity (5,0) (offset 999 in the table, offset 9
in the stream) does not overwrite the offset 100 already recorded for it
in the same section. -/
theorem c10_within_section_first_entry_wins_witness :
    parse_xref_table_entries [(((5 : Int), (0 : Int)), (100 : Int))] 5
        [⟨999, 0, InUse.n⟩] = some [(((5 : Int), (0 : Int)), (100 : Int))]
    ∧ alookup [(((5 : Int), (0 : Int)), (100 : Int))] ((5 : Int), (0 : Int)) = some 100
    ∧ (parse_xref_stream_rows [1, 1, 1] [1, 9, 0] 5 1
        ([(((5 : Int), (0 : Int)), (100 : Int))], [])).1 =
        [(((5 : Int), (0 : Int)), (100 : Int))]
    ∧ alookup (parse_xref_stream_rows [1, 1, 1] [1, 9, 0] 5 1
        ([(((5 : Int), (0 : Int)), (100 : Int))], [])).1 ((5 : Int), (0 : Int)) = some 100 :=
  ⟨by decide,
   c10_within_section_first_entry_wins.1 [(((5 : Int), (0 : Int)), (100 : Int))] 5
     [⟨999, 0, InUse.n⟩] [(((5 : Int), (0 : Int)), (100 : Int))]
     ((5 : Int), (0 : Int)) 100 (by decide) (by decide),
   by decide,
   c10_within_section_first_entry_wins.2 [1, 1, 1] [1, 9, 0] 5 1
     [(((5 : Int), (0 : Int)), (100 : Int))] [] ((5 : Int), (0 : Int)) 100 (by decide)⟩

theorem alookup_none_not_mem {α β : Type} [DecidableEq α]
    (u : List (α × β)) (k : α) (h : alookup u k = none) : k ∉ u.map Prod.fst := by
  induction u with
  | nil => simp
  | cons kv rest ih =>
      obtain ⟨k0, w⟩ := kv
      by_cases h0 : k0 = k
      · subst h0; simp [alookup] at h
      · simp only [alookup, if_neg h0] at h
        simp only [List.map_cons, List.mem_cons, not_or]
        exact ⟨fun e => h0 e.symm, ih h⟩

theorem keys_aset_of_some {α β : Type} [DecidableEq α]
    (m : List (α × β)) (k : α) (v w : β) (h : alookup m k = some w) :
    (aset m k v).map Prod.fst = m.map Prod.fst := by
  induction m with
  | nil => simp [alookup] at h
  | cons kv rest ih =>
      obtain ⟨k0, u⟩ := kv
      by_cases h0 : k0 = k
      · subst h0; simp [aset]
      · simp only [alookup, if_neg h0] at h
        simp [aset, h0, ih h]

theorem keys_aset_of_none {α β : Type} [DecidableEq α]
    (m : List (α × β)) (k : α) (v : β) (h : alookup m k = none) :
    (aset m k v).map Prod.fst = m.map Prod.fst ++ [k] := by
  induction m with
  | nil => simp [aset]
  | cons kv rest ih =>
      obtain ⟨k0, u⟩ := kv
      by_cases h0 : k0 = k
      · subst h0; simp [alookup] at h
      · simp only [alookup, if_neg h0] at h
        simp [aset, h0, ih h]

theorem nodup_aset {α β : Type} [DecidableEq α]
    (m : List (α × β)) (k : α) (v : β) (h : (m.map Prod.fst).Nodup) :
    ((aset m k v).map Prod.fst).Nodup := by
  cases hl : alookup m k with
  | some w => rw [keys_aset_of_some _ _ _ _ hl]; exact h
  | none =>
      rw [keys_aset_of_none _ _ _ hl]
      simp only [List.nodup_append, List.nodup_cons]
      exact ⟨h, by simp, by
        intro a ha hb
        simp only [List.mem_singleton] at hb
        subst hb
        exact alookup_none_not_mem _ _ hl ha⟩

/-- Claim C8 counterexample: a two-revision chain whose newest trailer declares
only `Root` while the oldest also declares `Info`.  The merged result is
`oldest.update(newest)` restricted to Root, Info, ID, so the `Info` of
the oldest trailer is inherited into the result even though the newest
trailer has no `Info` entry — contradicting the claim that only the
newest section's Root, Info and ID values are exposed and that older
fields are not inherited. -/
theorem c8_counterexample :
    loadTrailerChain
        [[("/Root", some "1 0 R")], [("/Root", some "2 0 R"), ("/Info", some "3 0 R")]] =
      some ⟨some "1 0 R", some "3 0 R", none⟩
    ∧ tget [("/Root", some "1 0 R")] "/Info" = none := by
  constructor
  · rfl
  · rfl

/-- Value a trailer field of the final merged trailer takes: the newest
trailer's stored value when the key is present there, otherwise the value
inherited from the oldest section's trailer. -/
def pickTrailerField (t0 tn : TDict) (k : String) : Option String :=
  match alookup t0 k with
  | some w => w
  | none => tget tn k

/-- Claim C8 amended: the final merged trailer exposes only the Root, Info and
ID fields; each is the newest trailer's value when the newest trailer
carries the key, and is otherwise inherited from the oldest section's
trailer (because the merge is `oldest.update(newest)`); trailers of
middle sections are ignored entirely. -/
theorem c8_trailer_merge_amended (t0 : TDict) (mids : List TDict) (tn : TDict)
    (hnd : (t0.map Prod.fst).Nodup) :
    loadTrailerChain (t0 :: (mids ++ [tn])) =
      some ⟨pickTrailerField t0 tn "/Root", pickTrailerField t0 tn "/Info",
            pickTrailerField t0 tn "/ID"⟩ := by
  have hmerge : ∀ k : String, k ≠ "/Prev" →
      tget (aupdate tn (aset t0 "/Prev" none)) k = pickTrailerField t0 tn k := by
    intro k hk
    unfold pickTrailerField tget
    cases hl : alookup t0 k with
    | some w =>
        have h2 : alookup (aset t0 "/Prev" none) k = some w := by
          rw [alookup_aset_ne _ _ _ _ (Ne.symm hk)]; exact hl
        rw [alookup_aupdate_of_nodup_some _ _ _ _ (nodup_aset _ _ _ hnd) h2]
        rfl
    | none =>
        have h2 : alookup (aset t0 "/Prev" none) k = none := by
          rw [alookup_aset_ne _ _ _ _ (Ne.symm hk)]; exact hl
        rw [alookup_aupdate_of_none _ _ _ h2]
  have hlast : (mids ++ [tn]).getLast? = some tn := by
    rw [List.getLast?_append_cons]
    rfl
  unfold loadTrailerChain
  dsimp only
  rw [hlast]
  unfold restrictTrailer
  dsimp only
  rw [hmerge "/Root" (by decide), hmerge "/Info" (by decide), hmerge "/ID" (by decide)]

/-- Witness for c8_trailer_merge_amended: a three-revision chain; the
newest trailer carries Root only, the middle trailer (ignored) carries
everything, the oldest carries Info; the result takes Root from the
newest and inherits Info from the oldest. -/
theorem c8_trailer_merge_amended_witness :
    loadTrailerChain [[("/Root", some "9 0 R")],
        [("/Root", some "4 0 R"), ("/Info", some "4 1 R"), ("/ID", some "mid")],
        [("/Info", some "7 0 R")]] =
      some ⟨pickTrailerField [("/Root", some "9 0 R")] [("/Info", some "7 0 R")] "/Root",
            pickTrailerField [("/Root", some "9 0 R")] [("/Info", some "7 0 R")] "/Info",
            pickTrailerField [("/Root", some "9 0 R")] [("/Info", some "7 0 R")] "/ID"⟩ :=
  c8_trailer_merge_amended [("/Root", some "9 0 R")]
    [[("/Root", some "4 0 R"), ("/Info", some "4 1 R"), ("/ID", some "mid")]]
    [("/Info", some "7 0 R")] (by decide)

/-- Claim C9: page tree traversal is a depth-first, pre-order, order-preserving
flattening.  The first part is the spec's concrete shape: a catalog over
Pages(kids = Page A, Pages(kids = Page B, Page C)) yields the page list
A, B, C, each Page yielded once in traversal order.  The second part is
the order-preservation of the kid loop in general. -/
theorem c9_page_tree_traversal :
    (∀ a b c : Nat,
        readpages (PTree.catalog (PTree.pages
          [PTree.page a, PTree.pages [PTree.page b, PTree.page c]])) =
          [PTree.page a, PTree.page b, PTree.page c])
    ∧ (∀ (k : PTree) (ks : List PTree),
        readnode (PTree.pages (k :: ks)) = readnode k ++ readnode (PTree.pages ks)) := by
  constructor
  · intro a b c
    rfl
  · intro k ks
    rfl

theorem loadStep_deferred (st1 : ReaderState) (key : PdfKey) (obj : PdfVal) (tok : String) :
    (loadStep st1 key obj tok).1.deferred_objects = st1.deferred_objects.erase key := by
  unfold loadStep
  split
  · rfl
  · split
    · rfl
    · cases obj
      · rfl
      · dsimp only
        split
        · rfl
        · rfl
      · rfl
      · rfl
      · rfl

theorem loadStep_stores (st1 : ReaderState) (key : PdfKey) (obj : PdfVal) (tok : String)
    (st2 : ReaderState) (v : PdfVal)
    (h : loadStep st1 key obj tok = (st2, some v)) :
    alookup st2.indirect_objects key = some v := by
  unfold loadStep at h
  split at h
  · have hfst := congrArg Prod.fst h
    have hsnd := congrArg Prod.snd h
    simp only [Option.some.injEq] at hfst hsnd
    rw [← hfst, ← hsnd]
    exact alookup_aset_self _ _ _
  · split at h
    · have hfst := congrArg Prod.fst h
      have hsnd := congrArg Prod.snd h
      simp only [Option.some.injEq] at hfst hsnd
      rw [← hfst, ← hsnd]
      exact alookup_aset_self _ _ _
    · cases obj with
      | tok s =>
          dsimp only at h
          split at h
          · have hfst := congrArg Prod.fst h
            have hsnd := congrArg Prod.snd h
            simp only [Option.some.injEq] at hfst hsnd
            rw [← hfst, ← hsnd]
            exact alookup_aset_self _ _ _
          · have hfst := congrArg Prod.fst h
            have hsnd := congrArg Prod.snd h
            simp only [Option.some.injEq] at hfst hsnd
            rw [← hfst, ← hsnd]
            exact alookup_aset_self _ _ _
      | null =>
          have hfst := congrArg Prod.fst h
          have hsnd := congrArg Prod.snd h
          simp only [Option.some.injEq] at hfst hsnd
          rw [← hfst, ← hsnd]
          exact alookup_aset_self _ _ _
      | ref k2 =>
          have hfst := congrArg Prod.fst h
          have hsnd := congrArg Prod.snd h
          simp only [Option.some.injEq] at hfst hsnd
          rw [← hfst, ← hsnd]
          exact alookup_aset_self _ _ _
      | arr elems =>
          have hfst := congrArg Prod.fst h
          have hsnd := congrArg Prod.snd h
          simp only [Option.some.injEq] at hfst hsnd
          rw [← hfst, ← hsnd]
          exact alookup_aset_self _ _ _
      | dict entries =>
          have hfst := congrArg Prod.fst h
          have hsnd := congrArg Prod.snd h
          simp only [Option.some.injEq] at hfst hsnd
          rw [← hfst, ← hsnd]
          exact alookup_aset_self _ _ _

theorem loadindirect_stores
    (parseAt : PdfKey → Int → ReaderState → Option (ReaderState × PdfVal × String))
    (st : ReaderState) (key : PdfKey) (st2 : ReaderState) (v : PdfVal)
    (h : loadindirect parseAt st key = (st2, some v)) :
    alookup st2.indirect_objects key = some v := by
  unfold loadindirect at h
  cases hl : alookup st.indirect_objects key with
  | none =>
      rw [hl] at h
      have hsnd := congrArg Prod.snd h
      simp at hsnd
  | some w =>
      rw [hl] at h
      dsimp only at h
      by_cases hr : w.isRef = true
      · rw [if_pos hr] at h
        by_cases ho : (alookup st.obj_offsets key).getD 0 = 0
        · rw [if_pos ho] at h
          have hsnd := congrArg Prod.snd h
          simp at hsnd
        · rw [if_neg ho] at h
          cases hp : parseAt key ((alookup st.obj_offsets key).getD 0) st with
          | none =>
              rw [hp] at h
              have hsnd := congrArg Prod.snd h
              simp at hsnd
          | some r =>
              rw [hp] at h
              exact loadStep_stores r.1 key r.2.1 r.2.2 st2 v h
      · rw [if_neg hr] at h
        have hfst := congrArg Prod.fst h
        have hsnd := congrArg Prod.snd h
        simp only [Option.some.injEq] at hfst hsnd
        rw [← hfst, ← hsnd]
        exact hl

/-- Claim C3: for an object identity absent from every xref section's
object-offset map (so absent from the merged map the chain merge leaves
in `source.obj_offsets`), `loadindirect` on its registered placeholder
emits the "Did not find PDF object" warning and resolves to Python `None`
— the missing sentinel — leaving the state otherwise untouched.  The
function is total here: no `source.exception` (fatal abort) exists on
this path, so the load is never aborted. -/
theorem c3_absent_identity_yields_missing
    (parseAt : PdfKey → Int → ReaderState → Option (ReaderState × PdfVal × String))
    (xref_list : List OffMap) (base : OffMap) (st : ReaderState) (key : PdfKey)
    (habsent : ∀ s, s ∈ xref_list → alookup s key = none)
    (hbase : alookup base key = none)
    (hoff : st.obj_offsets = mergeXrefChain xref_list base)
    (hph : alookup st.indirect_objects key = some (PdfVal.ref key)) :
    loadindirect parseAt st key =
      ({ st with log := st.log ++ [LogMsg.warning "Did not find PDF object"] }, none) := by
  have hnone : alookup st.obj_offsets key = none := by
    rw [hoff]
    exact alookup_mergeXrefChain_none _ _ _ habsent hbase
  unfold loadindirect
  rw [hph]
  dsimp only
  rw [hnone]
  rfl

/-- Witness for c3_absent_identity_yields_missing: identity (1,0) has a
placeholder but appears in no section of a two-revision chain; loading it
warns and resolves to `none`. -/
theorem c3_absent_identity_yields_missing_witness :
    loadindirect (fun _ _ _ => none)
      ⟨[(((1 : Int), (0 : Int)), PdfVal.ref (1, 0))], [((1 : Int), (0 : Int))],
       mergeXrefChain [[(((2 : Int), (0 : Int)), (10 : Int))]] [(((3 : Int), (0 : Int)), (20 : Int))],
       []⟩ ((1 : Int), (0 : Int)) =
      (⟨[(((1 : Int), (0 : Int)), PdfVal.ref (1, 0))], [((1 : Int), (0 : Int))],
        mergeXrefChain [[(((2 : Int), (0 : Int)), (10 : Int))]] [(((3 : Int), (0 : Int)), (20 : Int))],
        [LogMsg.warning "Did not find PDF object"]⟩, none) :=
  c3_absent_identity_yields_missing (fun _ _ _ => none)
    [[(((2 : Int), (0 : Int)), (10 : Int))]] [(((3 : Int), (0 : Int)), (20 : Int))]
    ⟨[(((1 : Int), (0 : Int)), PdfVal.ref (1, 0))], [((1 : Int), (0 : Int))],
     mergeXrefChain [[(((2 : Int), (0 : Int)), (10 : Int))]] [(((3 : Int), (0 : Int)), (20 : Int))],
     []⟩ ((1 : Int), (0 : Int))
    (by intro s hs; simp only [List.mem_singleton] at hs; subst hs; decide)
    (by decide) rfl rfl

/-- Claim C2 counterexample: identity (1,0) is in the deferred set with a
registered placeholder but has no recorded offset.  The load attempt on
it completes (resolving to `None`), yet the identity is still in the
deferred set afterwards — the source's missing-offset path returns
without touching `deferred_objects`, contradicting the claim that every
identity leaves the deferred set exactly once and that none remains
there after a load attempt on it completes. -/
theorem c2_counterexample :
    (loadindirect (fun _ _ _ => none)
        ⟨[(((1 : Int), (0 : Int)), PdfVal.ref (1, 0))], [((1 : Int), (0 : Int))], [], []⟩
        ((1 : Int), (0 : Int))).2 = none
    ∧ ((1 : Int), (0 : Int)) ∈
        (loadindirect (fun _ _ _ => none)
          ⟨[(((1 : Int), (0 : Int)), PdfVal.ref (1, 0))], [((1 : Int), (0 : Int))], [], []⟩
          ((1 : Int), (0 : Int))).1.deferred_objects := by
  constructor
  · rfl
  · exact List.mem_singleton.mpr rfl

/-- Claim C2 amended: an identity with a registered placeholder is removed from
the deferred set exactly when its load attempt finds a nonzero offset and
the object parse at that offset succeeds (the removal happening once, by
`deferred_objects.remove`); when the offset is missing or the header
cannot be validated, the load attempt resolves to `None` but leaves the
deferred set unchanged, so the identity remains in it. -/
theorem c2_deferred_set_amended
    (parseAt : PdfKey → Int → ReaderState → Option (ReaderState × PdfVal × String))
    (st : ReaderState) (key : PdfKey)
    (hph : alookup st.indirect_objects key = some (PdfVal.ref key)) :
    ((alookup st.obj_offsets key).getD 0 = 0 →
        (loadindirect parseAt st key).1.deferred_objects = st.deferred_objects ∧
        (loadindirect parseAt st key).2 = none)
    ∧ (∀ off : Int, (alookup st.obj_offsets key).getD 0 = off → off ≠ 0 →
        parseAt key off st = none →
        (loadindirect parseAt st key).1.deferred_objects = st.deferred_objects ∧
        (loadindirect parseAt st key).2 = none)
    ∧ (∀ (off : Int) (st1 : ReaderState) (obj : PdfVal) (tok : String),
        (alookup st.obj_offsets key).getD 0 = off → off ≠ 0 →
        parseAt key off st = some (st1, obj, tok) →
        (loadindirect parseAt st key).1.deferred_objects =
          st1.deferred_objects.erase key) := by
  refine ⟨?_, ?_, ?_⟩
  · intro h0
    unfold loadindirect
    rw [hph]
    dsimp only
    rw [if_pos h0]
    exact ⟨rfl, rfl⟩
  · intro off hoff hne hp
    unfold loadindirect
    rw [hph]
    dsimp only
    rw [hoff, if_neg hne, hp]
    exact ⟨rfl, rfl⟩
  · intro off st1 obj tok hoff hne hp
    unfold loadindirect
    rw [hph]
    dsimp only
    rw [hoff, if_neg hne, hp]
    exact loadStep_deferred st1 key obj tok

/-- Witness for c2_deferred_set_amended: the missing-offset case keeps
(1,0) deferred, while a successful parse at offset 5 removes it. -/
theorem c2_deferred_set_amended_witness :
    ((loadindirect (fun _ _ _ => none)
        ⟨[(((1 : Int), (0 : Int)), PdfVal.ref (1, 0))], [((1 : Int), (0 : Int))], [], []⟩
        ((1 : Int), (0 : Int))).1.deferred_objects = [((1 : Int), (0 : Int))])
    ∧ ((loadindirect
          (fun _ _ s => some (s, PdfVal.dict [], "endobj"))
          ⟨[(((1 : Int), (0 : Int)), PdfVal.ref (1, 0))], [((1 : Int), (0 : Int))],
           [(((1 : Int), (0 : Int)), (5 : Int))], []⟩
          ((1 : Int), (0 : Int))).1.deferred_objects =
        List.erase [((1 : Int), (0 : Int))] ((1 : Int), (0 : Int))) :=
  ⟨(c2_deferred_set_amended (fun _ _ _ => none)
      ⟨[(((1 : Int), (0 : Int)), PdfVal.ref (1, 0))], [((1 : Int), (0 : Int))], [], []⟩
      ((1 : Int), (0 : Int)) rfl).1 rfl |>.1,
   (c2_deferred_set_amended (fun _ _ s => some (s, PdfVal.dict [], "endobj"))
      ⟨[(((1 : Int), (0 : Int)), PdfVal.ref (1, 0))], [((1 : Int), (0 : Int))],
       [(((1 : Int), (0 : Int)), (5 : Int))], []⟩
      ((1 : Int), (0 : Int)) rfl).2.2 5
      ⟨[(((1 : Int), (0 : Int)), PdfVal.ref (1, 0))], [((1 : Int), (0 : Int))],
       [(((1 : Int), (0 : Int)), (5 : Int))], []⟩
      (PdfVal.dict []) "endobj" rfl (by decide) rfl⟩

/-- Claim C4: resolution is idempotent.  Part one: before resolution, repeated
`findindirect` calls for the same identity return the same placeholder
(the registered PdfIndirect) and leave the state unchanged, so every
holder shares one placeholder.  Part two: once a load has produced and
stored a value (every successful parse path of `loadindirect` stores a
non-placeholder object), loading the same identity again returns exactly
the stored value with the state untouched — the early
`not isinstance(result, PdfIndirect)` return — so no duplicate parsing
work (and not even a log entry) occurs. -/
theorem c4_resolution_idempotent :
    (∀ (st st1 : ReaderState) (o g : String) (r : PdfVal),
        findindirect st o g = some (st1, r) → findindirect st1 o g = some (st1, r))
    ∧ (∀ (parseAt : PdfKey → Int → ReaderState → Option (ReaderState × PdfVal × String))
          (st st2 : ReaderState) (key : PdfKey) (v : PdfVal),
        loadindirect parseAt st key = (st2, some v) → v.isRef = false →
        loadindirect parseAt st2 key = (st2, some v)) := by
  constructor
  · intro st st1 o g r h
    unfold findindirect at h ⊢
    cases ho : pyInt o with
    | none => simp [ho] at h
    | some oi =>
        cases hg : pyInt g with
        | none => simp [ho, hg] at h
        | some gi =>
            rw [ho, hg] at h
            dsimp only at h ⊢
            cases hl : alookup st.indirect_objects (oi, gi) with
            | some w =>
                rw [hl] at h
                injection h with h2
                injection h2 with ha hb
                subst ha
                subst hb
                rw [hl]
            | none =>
                rw [hl] at h
                injection h with h2
                injection h2 with ha hb
                subst ha
                subst hb
                dsimp only
                rw [alookup_aset_self]
  · intro parseAt st st2 key v h hv
    have hs := loadindirect_stores parseAt st key st2 v h
    unfold loadindirect
    rw [hs]
    dsimp only
    rw [if_neg (by rw [hv]; exact Bool.false_ne_true)]

/-- Witness for c4_resolution_idempotent: a second `findindirect` for
(7,0) returns the placeholder the first call registered, and a second
load of (1,0) after a successful first load returns the stored empty
dictionary with the state unchanged. -/
theorem c4_resolution_idempotent_witness :
    findindirect
        ⟨[(((7 : Int), (0 : Int)), PdfVal.ref (7, 0))], [((7 : Int), (0 : Int))], [], []⟩
        "7" "0" =
      some (⟨[(((7 : Int), (0 : Int)), PdfVal.ref (7, 0))], [((7 : Int), (0 : Int))], [], []⟩,
            PdfVal.ref (7, 0))
    ∧ loadindirect (fun _ _ s => some (s, PdfVal.dict [], "endobj"))
        ⟨[(((1 : Int), (0 : Int)), PdfVal.dict [])], [],
         [(((1 : Int), (0 : Int)), (5 : Int))], []⟩
        ((1 : Int), (0 : Int)) =
      (⟨[(((1 : Int), (0 : Int)), PdfVal.dict [])], [],
        [(((1 : Int), (0 : Int)), (5 : Int))], []⟩, some (PdfVal.dict [])) :=
  ⟨c4_resolution_idempotent.1
      ⟨[], [], [], []⟩
      ⟨[(((7 : Int), (0 : Int)), PdfVal.ref (7, 0))], [((7 : Int), (0 : Int))], [], []⟩
      "7" "0" (PdfVal.ref (7, 0)) rfl,
   c4_resolution_idempotent.2 (fun _ _ s => some (s, PdfVal.dict [], "endobj"))
      ⟨[(((1 : Int), (0 : Int)), PdfVal.ref (1, 0))], [((1 : Int), (0 : Int))],
       [(((1 : Int), (0 : Int)), (5 : Int))], []⟩
      ⟨[(((1 : Int), (0 : Int)), PdfVal.dict [])], [],
       [(((1 : Int), (0 : Int)), (5 : Int))], []⟩
      ((1 : Int), (0 : Int)) (PdfVal.dict []) rfl rfl⟩

/-- Claim C5: for a stream whose fast path fails, whose declared Length exceeds
the gap to the physical `endstream` by exactly one byte, and whose
`stream` keyword was terminated by a lone CR (so the byte before the
detected start, consumed as a supposed LF, was really the first data
byte — the source detects this as `fdata[startstream-2:startstream] ==
'\r\n'`), `readstream` shifts the extracted window one byte earlier: the
body becomes exactly the bytes from after the CR up to the true
`endstream`, a warning is logged, and no error (let alone a fatal abort)
occurs. -/
theorem c5_stream_lone_cr_repair (fdata : List Char) (startstream length0 e : Nat)
    (hfast : tokens2 fdata (startstream + length0) ≠ streamending)
    (hfind : pyFind fdata (String.toList "endstream") startstream
        ((fdata.length : Int) - 20) = some e)
    (hlen : length0 = (e - startstream) + 1)
    (hcr : pySlice fdata ((startstream : Int) - 2) (startstream : Int) = ['\r', '\n']) :
    readstream fdata startstream length0 =
      ⟨pySlice fdata ((startstream : Int) - 1) (e : Int),
       [LogMsg.warning "stream keyword terminated by CR without LF"]⟩ := by
  have hge : startstream ≤ e := by
    unfold pyFind at hfind
    exact findAux_ge _ _ _ _ _ _ hfind
  have htgt : (((startstream + length0 : Nat) : Int) - 1) = (e : Int) := by
    omega
  unfold readstream
  dsimp only
  rw [if_neg hfast, hfind]
  dsimp only
  rw [if_pos ⟨hlen, hcr⟩, htgt]

/-- Witness for c5_stream_lone_cr_repair: the producer wrote `stream`
terminated by a lone CR, followed by the four data bytes LF A B C and
then `endstream endobj`; the reader skipped both CR and LF, so the gap to
`endstream` is one byte short of Length 4; the repair extracts the true
body (LF A B C) and logs only the warning. -/
theorem c5_stream_lone_cr_repair_witness :
    readstream (String.toList "stream" ++ ['\r', '\n'] ++
        String.toList "ABCendstream endobj" ++ List.replicate 20 ' ') 8 4 =
      ⟨pySlice (String.toList "stream" ++ ['\r', '\n'] ++
          String.toList "ABCendstream endobj" ++ List.replicate 20 ' ')
          ((8 : Int) - 1) ((11 : Nat) : Int),
       [LogMsg.warning "stream keyword terminated by CR without LF"]⟩ :=
  c5_stream_lone_cr_repair
    (String.toList "stream" ++ ['\r', '\n'] ++
      String.toList "ABCendstream endobj" ++ List.replicate 20 ' ')
    8 4 11 (by decide) (by decide) (by decide) (by decide)

/-- Claim C6 counterexample: a stream-bearing object whose buffer contains no
`endstream` after the stream start.  `readstream` reports the non-fatal
"Could not find endstream" error, but the stream body is NOT left empty:
it keeps the declared-Length window (here "ABCD") that was assigned
before the search, contradicting the claim that the body is left empty. -/
theorem c6_endstream_not_found_counterexample :
    readstream (String.toList "stream" ++ ['\n'] ++ String.toList "ABCD"
        ++ List.replicate 20 ' ') 7 4 =
      ⟨String.toList "ABCD", [LogMsg.error "Could not find endstream"]⟩
    ∧ String.toList "ABCD" ≠ ([] : List Char) := by
  constructor
  · decide
  · decide

/-- Claim C6 amended: when the literal `endstream` cannot be found anywhere in
`[startstream, len(fdata) - 20)`, `readstream` reports the non-fatal
"Could not find endstream" error and leaves the stream body as the
declared-Length window `fdata[startstream : startstream + Length]`
(assigned before the search), which need not be empty. -/
theorem c6_endstream_not_found_amended (fdata : List Char) (startstream length0 : Nat)
    (hfast : tokens2 fdata (startstream + length0) ≠ streamending)
    (hfind : pyFind fdata (String.toList "endstream") startstream
        ((fdata.length : Int) - 20) = none) :
    readstream fdata startstream length0 =
      ⟨pySliceN fdata startstream (startstream + length0),
       [LogMsg.error "Could not find endstream"]⟩ := by
  unfold readstream
  dsimp only
  rw [if_neg hfast, hfind]

/-- Witness for c6_endstream_not_found_amended at the counterexample's
input. -/
theorem c6_endstream_not_found_amended_witness :
    readstream (String.toList "stream" ++ ['\n'] ++ String.toList "ABCD"
        ++ List.replicate 20 ' ') 7 4 =
      ⟨pySliceN (String.toList "stream" ++ ['\n'] ++ String.toList "ABCD"
          ++ List.replicate 20 ' ') 7 (7 + 4),
       [LogMsg.error "Could not find endstream"]⟩ :=
  c6_endstream_not_found_amended
    (String.toList "stream" ++ ['\n'] ++ String.toList "ABCD" ++ List.replicate 20 ' ')
    7 4 (by decide) (by decide)

theorem pyInt_badtok (s : String) (hb : isBadTok s = true) : pyInt s = none := by
  have hcases : s = "\\" ∨ s = "(" ∨ s = ")" ∨ s = "<" ∨ s = ">" ∨ s = "\x7b" ∨
      s = "\x7d" ∨ s = "]" ∨ s = ">>" ∨ s = "%" := by
    simpa [isBadTok, Bool.or_eq_true, decide_eq_true_eq, or_assoc] using hb
  rcases hcases with rfl | rfl | rfl | rfl | rfl | rfl | rfl | rfl | rfl | rfl <;> decide

theorem pyInt_not_special (s : String) (v : Int) (h : pyInt s = some v) :
    s ≠ "]" ∧ s ≠ "R" ∧ s ≠ "[" ∧ s ≠ "<<" ∧ s ≠ "endobj" ∧ isBadTok s = false := by
  refine ⟨?_, ?_, ?_, ?_, ?_, ?_⟩
  · rintro rfl
    rw [show pyInt "]" = none from by decide] at h
    exact Option.noConfusion h
  · rintro rfl
    rw [show pyInt "R" = none from by decide] at h
    exact Option.noConfusion h
  · rintro rfl
    rw [show pyInt "[" = none from by decide] at h
    exact Option.noConfusion h
  · rintro rfl
    rw [show pyInt "<<" = none from by decide] at h
    exact Option.noConfusion h
  · rintro rfl
    rw [show pyInt "endobj" = none from by decide] at h
    exact Option.noConfusion h
  · cases hbt : isBadTok s with
    | false => rfl
    | true =>
        rw [pyInt_badtok s hbt] at h
        exact Option.noConfusion h

theorem readarrayAux_plain (st : ReaderState) (racc : List PdfVal) (fuel : Nat)
    (value : String) (rest : List String)
    (h1 : value ≠ "]") (h2 : value ≠ "R") (h3 : value ≠ "[") (h4 : value ≠ "<<")
    (h5 : value ≠ "endobj") (h6 : isBadTok value = false) :
    readarrayAux st racc (fuel + 1) (value :: rest) =
      readarrayAux st (PdfVal.tok value :: racc) fuel rest := by
  conv_lhs => unfold readarrayAux
  rw [if_neg h1, if_neg h2, if_neg h3, if_neg h4, if_neg h5,
      if_neg (by rw [h6]; exact Bool.false_ne_true)]

theorem readarrayAux_rtoken (st st2 : ReaderState) (racc2 : List PdfVal)
    (o g : String) (v : PdfVal) (fuel : Nat) (rest : List String)
    (hfi : findindirect st o g = some (st2, v)) :
    readarrayAux st (PdfVal.tok g :: PdfVal.tok o :: racc2) (fuel + 1) ("R" :: rest) =
      readarrayAux st2 (v :: racc2) fuel rest := by
  conv_lhs => unfold readarrayAux
  rw [if_neg (by decide : ¬("R" : String) = "]"), if_pos rfl]
  dsimp only
  rw [hfi]

theorem readarrayAux_rtoken_fail (st : ReaderState) (racc2 : List PdfVal)
    (o g : String) (fuel : Nat) (rest : List String)
    (hfi : findindirect st o g = none) :
    readarrayAux st (PdfVal.tok g :: PdfVal.tok o :: racc2) (fuel + 1) ("R" :: rest) =
      none := by
  unfold readarrayAux
  rw [if_neg (by decide : ¬("R" : String) = "]"), if_pos rfl]
  dsimp only
  rw [hfi]

theorem readarrayAux_close (st : ReaderState) (racc : List PdfVal) (fuel : Nat)
    (rest : List String) :
    readarrayAux st racc (fuel + 1) ("]" :: rest) = some (st, racc.reverse, rest) := by
  unfold readarrayAux
  rw [if_pos rfl]

/-- Claim C7 counterexample: the token run `-1 0 R ]` collapses into the single
Indirect Reference (-1, 0) — the preceding two values are popped and
converted with `int()`, which accepts the signed token "-1" even though
it is not digit-like (`"-1".isdigit()` is false).  So the collapse is not
conditioned on the two preceding values being digit-like, contradicting
the claim's "exactly when". -/
theorem c7_r_collapse_counterexample :
    readarrayAux ⟨[], [], [], []⟩ [] 4 ["-1", "0", "R", "]"] =
      some (⟨[(((-1 : Int), (0 : Int)), PdfVal.ref (-1, 0))], [((-1 : Int), (0 : Int))],
             [], []⟩,
            [PdfVal.ref (-1, 0)], [])
    ∧ pyIsdigit "-1" = false := by
  constructor
  · rfl
  · rfl

/-- Claim C7 amended: on an `R` token during array parsing the two preceding
accumulated values are unconditionally popped; the collapse into a single
Indirect Reference built from them as (object number, generation number)
happens exactly when both are scalar tokens accepted by Python `int()` —
a strictly wider class than digit-like tokens, since signed integers
convert too; when `int()` rejects the popped object-number token the
parse aborts with an uncaught conversion error instead of keeping the
values. -/
theorem c7_r_collapse_amended :
    (∀ (st : ReaderState) (o g : String) (oi gi : Int) (rest : List String) (n : Nat),
        pyInt o = some oi → pyInt g = some gi →
        alookup st.indirect_objects (oi, gi) = none →
        readarrayAux st [] (n + 1 + 1 + 1 + 1) (o :: g :: "R" :: "]" :: rest) =
          some ({ st with
                    indirect_objects :=
                      aset st.indirect_objects (oi, gi) (PdfVal.ref (oi, gi)),
                    deferred_objects := st.deferred_objects ++ [(oi, gi)] },
                [PdfVal.ref (oi, gi)], rest))
    ∧ (∀ (st : ReaderState) (b g : String) (gi : Int) (rest : List String) (n : Nat),
        pyInt b = none → pyInt g = some gi →
        b ≠ "]" → b ≠ "R" → b ≠ "[" → b ≠ "<<" → b ≠ "endobj" → isBadTok b = false →
        readarrayAux st [] (n + 1 + 1 + 1 + 1) (b :: g :: "R" :: "]" :: rest) = none) := by
  constructor
  · intro st o g oi gi rest n ho hg hfresh
    obtain ⟨ho1, ho2, ho3, ho4, ho5, ho6⟩ := pyInt_not_special o oi ho
    obtain ⟨hg1, hg2, hg3, hg4, hg5, hg6⟩ := pyInt_not_special g gi hg
    have hfi : findindirect st o g =
        some ({ st with
                  indirect_objects :=
                    aset st.indirect_objects (oi, gi) (PdfVal.ref (oi, gi)),
                  deferred_objects := st.deferred_objects ++ [(oi, gi)] },
              PdfVal.ref (oi, gi)) := by
      unfold findindirect
      rw [ho, hg]
      dsimp only
      rw [hfresh]
    rw [readarrayAux_plain st [] _ o _ ho1 ho2 ho3 ho4 ho5 ho6,
        readarrayAux_plain st [PdfVal.tok o] _ g _ hg1 hg2 hg3 hg4 hg5 hg6,
        readarrayAux_rtoken st _ [] o g _ _ _ hfi,
        readarrayAux_close]
    rfl
  · intro st b g gi rest n hb hg hb1 hb2 hb3 hb4 hb5 hb6
    obtain ⟨hg1, hg2, hg3, hg4, hg5, hg6⟩ := pyInt_not_special g gi hg
    have hfi : findindirect st b g = none := by
      unfold findindirect
      rw [hb, hg]
    rw [readarrayAux_plain st [] _ b _ hb1 hb2 hb3 hb4 hb5 hb6,
        readarrayAux_plain st [PdfVal.tok b] _ g _ hg1 hg2 hg3 hg4 hg5 hg6,
        readarrayAux_rtoken_fail st [] b g _ _ hfi]

/-- Witness for c7_r_collapse_amended: `12 3 R ]` collapses to the
reference (12, 3); `/Name 3 R ]` aborts with a conversion error. -/
theorem c7_r_collapse_amended_witness :
    readarrayAux ⟨[], [], [], []⟩ [] (0 + 1 + 1 + 1 + 1) ["12", "3", "R", "]"] =
      some (⟨[(((12 : Int), (3 : Int)), PdfVal.ref (12, 3))], [((12 : Int), (3 : Int))],
             [], []⟩,
            [PdfVal.ref (12, 3)], [])
    ∧ readarrayAux ⟨[], [], [], []⟩ [] (0 + 1 + 1 + 1 + 1) ["/Name", "3", "R", "]"] =
        none :=
  ⟨c7_r_collapse_amended.1 ⟨[], [], [], []⟩ "12" "3" 12 3 [] 0
     (by decide) (by decide) rfl,
   c7_r_collapse_amended.2 ⟨[], [], [], []⟩ "/Name" "3" 3 [] 0
     (by decide) (by decide) (by decide) (by decide) (by decide) (by decide)
     (by decide) (by decide)⟩
